import Mathlib

/-!
Verification of the color-harmony and accessibility computation engine of the
color-mixer repository (src/utils/accessibility.ts and src/utils/colorHarmony.ts).

Modelling conventions, used consistently below:

* JavaScript numbers are modelled as exact rationals (`ℚ`).  All arithmetic in
  the engine (`+`, `-`, `*`, `/`, `Math.max`, `Math.min`, comparisons) is
  modelled exactly; the properties proved here are structural and do not
  depend on IEEE-754 rounding.
* The engine delegates color parsing, HSL conversion and hex encoding to the
  external chroma-js library, which is not part of this repository.  Those
  primitives are modelled from the specification (hex strings as the canonical
  input form, the standard RGB/HSL color-wheel arithmetic, lowercase
  `#rrggbb` output); each such definition carries a `Modelled from the spec:`
  doc comment.
* `Math.pow(x, 2.4)` (used only inside the WCAG relative-luminance formula) is
  transcendental and is modelled by a fixed-precision monotone rational
  approximation that is exact at 0 and 1 and maps `[0, 1]` into `[0, 1]`.
  Every theorem below depends only on those properties, never on the digits of
  the approximation.
-/

/-- Truncation of a rational toward zero, the rounding used by the JavaScript
`%` remainder operator. -/
def ratTrunc (q : ℚ) : ℤ := if 0 ≤ q then ⌊q⌋ else -⌊-q⌋

/-- The JavaScript `%` remainder: `x % y = x - y * trunc(x / y)` (the sign of
the result follows the dividend). -/
def jsRem (x y : ℚ) : ℚ := x - y * (ratTrunc (x / y) : ℚ)

/-- Mathematical reduction of a hue angle onto the color wheel `[0, 360)`. -/
def wheelMod (x : ℚ) : ℚ := x - 360 * (⌊x / 360⌋ : ℚ)

/-- JavaScript `Math.round`: round half toward positive infinity. -/
def jsRound (q : ℚ) : ℤ := ⌊q + 1 / 2⌋

/-- Round a rational channel value to an 8-bit byte, clamping to `[0, 255]`.
All call sites below pass values already inside `[0, 255]`; the clamp merely
totalizes the hex encoder. -/
def clampByte (q : ℚ) : ℕ := (max 0 (min 255 (jsRound q))).toNat

/-- Lowercase hexadecimal digit for a value in `[0, 15]`. -/
def hexDigitChar (n : ℕ) : Char := "0123456789abcdef".data.getD n '0'

/-- Two lowercase hexadecimal digits of a byte. -/
def byteToHex (n : ℕ) : String := String.mk [hexDigitChar (n / 16), hexDigitChar (n % 16)]

/-- Modelled from the spec: JavaScript `Number.prototype.toFixed(2)` (used by
`checkWCAGCompliance` to render the contrast value in the FAIL
recommendation), on nonnegative inputs: round to the nearest hundredth, ties
away from zero, and print with exactly two fraction digits. -/
def toFixed2 (q : ℚ) : String :=
  let n := ⌊q * 100 + 1 / 2⌋
  let ip := n / 100
  let fp := n % 100
  toString ip ++ "." ++ (if fp < 10 then "0" ++ toString fp else toString fp)

/-- Fixed-precision binary search for the fifth root of `x` inside `[0, 1]`:
returns the enclosing interval after `n` bisection steps. -/
def fifthRootIter (x : ℚ) : ℕ → ℚ × ℚ
  | 0 => (0, 1)
  | n + 1 =>
    match fifthRootIter x n with
    | (lo, hi) => if ((lo + hi) / 2) ^ 5 ≤ x then ((lo + hi) / 2, hi) else (lo, (lo + hi) / 2)

/-- Modelled from the spec: `Math.pow(x, 2.4)` of the JavaScript runtime (not
part of this repository), on the interval `[0, 1]` where the WCAG luminance
formula uses it.  Since `x ^ 2.4 = (x ^ 12) ^ (1 / 5)` this is a
fixed-precision rational approximation of the real fifth root of `x ^ 12`,
exact at the endpoints 0 and 1 and mapping `[0, 1]` into `[0, 1]`. -/
def pow24 (x : ℚ) : ℚ :=
  if x ≤ 0 then 0 else if 1 ≤ x then 1 else (fifthRootIter (x ^ 12) 32).1

/-- An 8-bit-per-channel RGB color value. -/
structure RGB where
  r : ℕ
  g : ℕ
  b : ℕ
  deriving DecidableEq

/-- Hexadecimal value of one digit character (case-insensitive). -/
def hexDigitVal (c : Char) : Option ℕ :=
  if 48 ≤ c.toNat ∧ c.toNat ≤ 57 then some (c.toNat - 48)
  else if 97 ≤ c.toNat ∧ c.toNat ≤ 102 then some (c.toNat - 87)
  else if 65 ≤ c.toNat ∧ c.toNat ≤ 70 then some (c.toNat - 55)
  else none

/-- One byte from two hexadecimal digit characters. -/
def byteFromHex (hi lo : Char) : Option ℕ :=
  match hexDigitVal hi, hexDigitVal lo with
  | some h, some l => some (16 * h + l)
  | _, _ => none

/-- Modelled from the spec: the color parser of the external chroma-js
library, restricted to the hex forms the spec names as canonical
(`#rrggbb` and the `#rgb` shorthand, case-insensitive, the `#` optional).
Any other string fails to parse, which in the source surfaces as a thrown
exception caught by each operation's catch-all. -/
def chromaParse (s : String) : Option RGB :=
  match (if s.data.head? = some '#' then s.data.tail else s.data) with
  | [r1, r2, g1, g2, b1, b2] =>
    match byteFromHex r1 r2, byteFromHex g1 g2, byteFromHex b1 b2 with
    | some r, some g, some b => some { r := r, g := g, b := b }
    | _, _, _ => none
  | [d1, d2, d3] =>
    match hexDigitVal d1, hexDigitVal d2, hexDigitVal d3 with
    | some r, some g, some b => some { r := 17 * r, g := 17 * g, b := 17 * b }
    | _, _, _ => none
  | _ => none

/-- Modelled from the spec: chroma-js `.hex()` — round each channel to a byte
and emit a lowercase `#rrggbb` string. -/
def chromaHexTriple (t : ℚ × ℚ × ℚ) : String :=
  "#" ++ byteToHex (clampByte t.1) ++ byteToHex (clampByte t.2.1) ++ byteToHex (clampByte t.2.2)

/-- Hex round-trip normalization of a color string: `chroma(s).hex()`, i.e.
the normalized lowercase `#rrggbb` form of a valid color, and the string
itself when it does not parse. -/
def normalizeColor (s : String) : String :=
  match chromaParse s with
  | some c => chromaHexTriple ((c.r : ℚ), (c.g : ℚ), (c.b : ℚ))
  | none => s

/-- Modelled from the spec: chroma-js RGB→HSL conversion, returning
`(h, s, l)` with hue in degrees `[0, 360)` and saturation/lightness in
`[0, 1]`.  chroma-js reports the (unobservable) hue of an achromatic color as
NaN; since saturation is 0 there and every consumer feeds the hue back through
HSL→RGB, which ignores the hue when saturation is 0, it is modelled as 0. -/
def rgb2hsl (c : RGB) : ℚ × ℚ × ℚ :=
  let r := (c.r : ℚ) / 255
  let g := (c.g : ℚ) / 255
  let b := (c.b : ℚ) / 255
  let mx := max r (max g b)
  let mn := min r (min g b)
  let l := (mx + mn) / 2
  if mx = mn then (0, 0, l)
  else
    let d := mx - mn
    let s := if l < 1 / 2 then d / (mx + mn) else d / (2 - mx - mn)
    let h0 := if r = mx then (g - b) / d else if g = mx then 2 + (b - r) / d else 4 + (r - g) / d
    let h1 := h0 * 60
    (if h1 < 0 then h1 + 360 else h1, s, l)

/-- One channel of the standard HSL→RGB interpolation (the helper chroma-js
applies to each of the three phase-shifted copies of the hue). -/
def hue2rgbChannel (t1 t2 t3 : ℚ) : ℚ :=
  let t := if t3 < 0 then t3 + 1 else if t3 > 1 then t3 - 1 else t3
  if 6 * t < 1 then t1 + (t2 - t1) * 6 * t
  else if 2 * t < 1 then t2
  else if 3 * t < 2 then t1 + (t2 - t1) * (2 / 3 - t) * 6
  else t1

/-- Modelled from the spec: chroma-js HSL→RGB conversion, producing channels
in `[0, 255]`.  The hue argument is reduced onto the color wheel `[0, 360)`
first, so that the hue axis is the circle the spec describes. -/
def hsl2rgb (h s l : ℚ) : ℚ × ℚ × ℚ :=
  if s = 0 then (l * 255, l * 255, l * 255)
  else
    let hn := wheelMod h / 360
    let t2 := if l < 1 / 2 then l * (1 + s) else l + s - l * s
    let t1 := 2 * l - t2
    (255 * hue2rgbChannel t1 t2 (hn + 1 / 3),
      255 * hue2rgbChannel t1 t2 hn,
      255 * hue2rgbChannel t1 t2 (hn - 1 / 3))

/-- sRGB-to-linear transform of one normalized channel, as written inline in
`getRelativeLuminance` (src/utils/accessibility.ts lines 73-75). -/
def srgbChannelToLinear (c : ℚ) : ℚ :=
  if c ≤ 0.03928 then c / 12.92 else pow24 ((c + 0.055) / 1.055)

/-- Relative luminance per the WCAG formula
(src/utils/accessibility.ts, `getRelativeLuminance`). -/
def getRelativeLuminance (color : RGB) : ℚ :=
  let rsRGB := (color.r : ℚ) / 255
  let gsRGB := (color.g : ℚ) / 255
  let bsRGB := (color.b : ℚ) / 255
  0.2126 * srgbChannelToLinear rsRGB + 0.7152 * srgbChannelToLinear gsRGB
    + 0.0722 * srgbChannelToLinear bsRGB

/-- Contrast ratio between two color strings
(src/utils/accessibility.ts, `calculateContrastRatio`): the try/catch around
the chroma-js parse is modelled as a match on the parser's `Option` result,
the catch branch returning 1. -/
def calculateContrastRatio (color1 color2 : String) : ℚ :=
  match chromaParse color1, chromaParse color2 with
  | some c1, some c2 =>
    let lum1 := getRelativeLuminance c1
    let lum2 := getRelativeLuminance c2
    let lighter := max lum1 lum2
    let darker := min lum1 lum2
    (lighter + 0.05) / (darker + 0.05)
  | _, _ => 1

/-- Pair of thresholds (normal text, large text). -/
structure WCAGThresholds where
  normal : ℚ
  large : ℚ

/-- The fixed WCAG requirement table. -/
structure WCAGRequirements where
  aa : WCAGThresholds
  aaa : WCAGThresholds

/-- WCAG contrast requirements (src/utils/accessibility.ts lines 31-40). -/
def WCAG_REQUIREMENTS : WCAGRequirements :=
  { aa := { normal := 4.5, large := 3.0 }, aaa := { normal := 7.0, large := 4.5 } }

/-- Pass/fail pair for normal and large text. -/
structure WCAGPair where
  normal : Bool
  large : Bool
  deriving DecidableEq

/-- The `'AAA' | 'AA' | 'FAIL'` union of the source. -/
inductive WCAGLevel
  | AAA
  | AA
  | FAIL
  deriving DecidableEq

/-- Result record of `checkWCAGCompliance` (src/utils/accessibility.ts lines 3-15). -/
structure ContrastResult where
  ratio : ℚ
  aa : WCAGPair
  aaa : WCAGPair
  level : WCAGLevel
  recommendation : String
  deriving DecidableEq

/-- WCAG compliance check (src/utils/accessibility.ts, `checkWCAGCompliance`). -/
def checkWCAGCompliance (foreground background : String) (isLargeText : Bool) : ContrastResult :=
  let r0 := calculateContrastRatio foreground background
  let aa : WCAGPair :=
    { normal := decide (r0 ≥ WCAG_REQUIREMENTS.aa.normal),
      large := decide (r0 ≥ WCAG_REQUIREMENTS.aa.large) }
  let aaa : WCAGPair :=
    { normal := decide (r0 ≥ WCAG_REQUIREMENTS.aaa.normal),
      large := decide (r0 ≥ WCAG_REQUIREMENTS.aaa.large) }
  if aaa.normal || (aaa.large && isLargeText) then
    { ratio := r0, aa := aa, aaa := aaa, level := WCAGLevel.AAA,
      recommendation := "Excellent contrast! Meets highest accessibility standards." }
  else if aa.normal || (aa.large && isLargeText) then
    { ratio := r0, aa := aa, aaa := aaa, level := WCAGLevel.AA,
      recommendation := "Good contrast! Meets basic accessibility requirements." }
  else
    { ratio := r0, aa := aa, aaa := aaa, level := WCAGLevel.FAIL,
      recommendation :=
        "Poor contrast (" ++ toFixed2 r0
          ++ ":1). Consider adjusting colors for better accessibility." }

/-- A named color-blindness simulation filter (src/utils/accessibility.ts lines 17-21). -/
structure ColorBlindnessFilter where
  name : String
  description : String
  matrix : List (List ℚ)
  deriving DecidableEq

/-- First entry of the filter table: the identity transform. -/
def normalVisionFilter : ColorBlindnessFilter :=
  { name := "Normal Vision", description := "Standard color vision",
    matrix := [[1, 0, 0, 0], [0, 1, 0, 0], [0, 0, 1, 0], [0, 0, 0, 1]] }

/-- Protanopia filter. -/
def protanopiaFilter : ColorBlindnessFilter :=
  { name := "Protanopia", description := "Red-blind (missing L-cones)",
    matrix := [[0.567, 0.433, 0, 0], [0.558, 0.442, 0, 0], [0, 0.242, 0.758, 0], [0, 0, 0, 1]] }

/-- Deuteranopia filter. -/
def deuteranopiaFilter : ColorBlindnessFilter :=
  { name := "Deuteranopia", description := "Green-blind (missing M-cones)",
    matrix := [[0.625, 0.375, 0, 0], [0.7, 0.3, 0, 0], [0, 0.3, 0.7, 0], [0, 0, 0, 1]] }

/-- Tritanopia filter. -/
def tritanopiaFilter : ColorBlindnessFilter :=
  { name := "Tritanopia", description := "Blue-blind (missing S-cones)",
    matrix := [[0.95, 0.05, 0, 0], [0, 0.433, 0.567, 0], [0, 0.475, 0.525, 0], [0, 0, 0, 1]] }

/-- Achromatopsia filter: the three color rows are identical. -/
def achromatopsiaFilter : ColorBlindnessFilter :=
  { name := "Achromatopsia", description := "Complete color blindness (monochrome)",
    matrix := [[0.299, 0.587, 0.114, 0], [0.299, 0.587, 0.114, 0],
      [0.299, 0.587, 0.114, 0], [0, 0, 0, 1]] }

/-- Protanomaly filter. -/
def protanomalyFilter : ColorBlindnessFilter :=
  { name := "Protanomaly", description := "Reduced sensitivity to red",
    matrix := [[0.817, 0.183, 0, 0], [0.333, 0.667, 0, 0], [0, 0.125, 0.875, 0], [0, 0, 0, 1]] }

/-- Deuteranomaly filter. -/
def deuteranomalyFilter : ColorBlindnessFilter :=
  { name := "Deuteranomaly", description := "Reduced sensitivity to green",
    matrix := [[0.8, 0.2, 0, 0], [0.258, 0.742, 0, 0], [0, 0.142, 0.858, 0], [0, 0, 0, 1]] }

/-- Tritanomaly filter. -/
def tritanomalyFilter : ColorBlindnessFilter :=
  { name := "Tritanomaly", description := "Reduced sensitivity to blue",
    matrix := [[0.967, 0.033, 0, 0], [0, 0.733, 0.267, 0], [0, 0.183, 0.817, 0], [0, 0, 0, 1]] }

/-- The fixed ordered filter table (src/utils/accessibility.ts lines 126-207). -/
def COLOR_BLINDNESS_FILTERS : List ColorBlindnessFilter :=
  [normalVisionFilter, protanopiaFilter, deuteranopiaFilter, tritanopiaFilter,
    achromatopsiaFilter, protanomalyFilter, deuteranomalyFilter, tritanomalyFilter]

/-- Entry `matrix[i][j]` with the out-of-range default 0 (never reached by the
fixed filter table). -/
def matrixEntry (m : List (List ℚ)) (i j : ℕ) : ℚ := (m.getD i []).getD j 0

/-- Color-blindness simulation (src/utils/accessibility.ts,
`applyColorBlindnessFilter`): normalize RGB to `[0, 1]`, apply the 3×3
sub-matrix, clamp each channel to `[0, 1]`, re-encode as hex; an unparseable
color is returned unchanged. -/
def applyColorBlindnessFilter (color : String) (filter : ColorBlindnessFilter) : String :=
  match chromaParse color with
  | some c =>
    let r := (c.r : ℚ) / 255
    let g := (c.g : ℚ) / 255
    let b := (c.b : ℚ) / 255
    let m := filter.matrix
    let newR := matrixEntry m 0 0 * r + matrixEntry m 0 1 * g + matrixEntry m 0 2 * b
    let newG := matrixEntry m 1 0 * r + matrixEntry m 1 1 * g + matrixEntry m 1 2 * b
    let newB := matrixEntry m 2 0 * r + matrixEntry m 2 1 * g + matrixEntry m 2 2 * b
    let clampedR := max 0 (min 1 newR)
    let clampedG := max 0 (min 1 newG)
    let clampedB := max 0 (min 1 newB)
    chromaHexTriple (clampedR * 255, clampedG * 255, clampedB * 255)
  | none => color

/-- The `'lighten' | 'darken' | 'adjust_hue' | 'complement'` union of the source. -/
inductive SuggestionType
  | lighten
  | darken
  | adjust_hue
  | complement
  deriving DecidableEq

/-- One accessibility suggestion (src/utils/accessibility.ts lines 23-28). -/
structure AccessibilitySuggestion where
  type : SuggestionType
  description : String
  suggestedColor : String
  improvement : ℚ
  deriving DecidableEq

/-- The descending-improvement order used by the comparator
`(a, b) => b.improvement - a.improvement`. -/
def suggestionGE (a b : AccessibilitySuggestion) : Prop := b.improvement ≤ a.improvement

instance : DecidableRel suggestionGE :=
  fun a b => inferInstanceAs (Decidable (b.improvement ≤ a.improvement))

instance : IsTotal AccessibilitySuggestion suggestionGE :=
  ⟨fun a b => le_total b.improvement a.improvement⟩

instance : IsTrans AccessibilitySuggestion suggestionGE :=
  ⟨fun _ _ _ hab hbc => le_trans hbc hab⟩

/-- Accessibility suggestions (src/utils/accessibility.ts,
`generateAccessibilitySuggestions`).  chroma's `.set('hsl.l', v).hex()` is the
HSL round trip with the lightness component replaced, and the JavaScript
comparator sort is modelled as a comparison sort by descending improvement. -/
def generateAccessibilitySuggestions (foreground background : String)
    (isLargeText : Bool) : List AccessibilitySuggestion :=
  let currentR := calculateContrastRatio foreground background
  match chromaParse foreground with
  | none => []
  | some fgColor =>
    let fgHsl := rgb2hsl fgColor
    let targetR := if isLargeText then WCAG_REQUIREMENTS.aa.large else WCAG_REQUIREMENTS.aa.normal
    let pushed :=
      if currentR < targetR then
        let lightenedFg := chromaHexTriple (hsl2rgb fgHsl.1 fgHsl.2.1 (min 1 (fgHsl.2.2 + 0.3)))
        let lightenedR := calculateContrastRatio lightenedFg background
        let s1 : List AccessibilitySuggestion :=
          if lightenedR > currentR then
            [{ type := SuggestionType.lighten,
               description := "Lighten foreground color to " ++ lightenedFg,
               suggestedColor := lightenedFg,
               improvement := lightenedR - currentR }]
          else []
        let darkenedFg := chromaHexTriple (hsl2rgb fgHsl.1 fgHsl.2.1 (max 0 (fgHsl.2.2 - 0.3)))
        let darkenedR := calculateContrastRatio darkenedFg background
        let s2 : List AccessibilitySuggestion :=
          if darkenedR > currentR then
            [{ type := SuggestionType.darken,
               description := "Darken foreground color to " ++ darkenedFg,
               suggestedColor := darkenedFg,
               improvement := darkenedR - currentR }]
          else []
        let adjustedHue := jsRem (fgHsl.1 + 180) 360
        let adjustedFg := chromaHexTriple (hsl2rgb adjustedHue fgHsl.2.1 fgHsl.2.2)
        let adjustedR := calculateContrastRatio adjustedFg background
        let s3 : List AccessibilitySuggestion :=
          if adjustedR > currentR then
            [{ type := SuggestionType.adjust_hue,
               description := "Change hue to complementary color " ++ adjustedFg,
               suggestedColor := adjustedFg,
               improvement := adjustedR - currentR }]
          else []
        s1 ++ s2 ++ s3
      else []
    List.insertionSort suggestionGE pushed

/-- A named harmony result (src/utils/colorHarmony.ts lines 3-7). -/
structure ColorHarmony where
  name : String
  colors : List String
  description : String
  deriving DecidableEq

/-- Monochromatic harmony (src/utils/colorHarmony.ts, `generateMonochromatic`).
For `count = 1` the source divides 0 by 0 (yielding NaN); the rational model
yields 0 there, a case no claim touches. -/
def generateMonochromatic (baseColor : String) (count : ℕ) : ColorHarmony :=
  match chromaParse baseColor with
  | some base =>
    let hsl := rgb2hsl base
    { name := "Monochromatic",
      colors := (List.range count).map fun (i : ℕ) =>
        chromaHexTriple (hsl2rgb hsl.1 hsl.2.1 (0.1 + (((i : ℕ) : ℚ) / ((count : ℚ) - 1)) * 0.8)),
      description := "Variations of the same hue with different lightness values" }
  | none =>
    { name := "Monochromatic", colors := [baseColor],
      description := "Error generating monochromatic harmony" }

/-- Analogous harmony (src/utils/colorHarmony.ts, `generateAnalogous`):
hue steps of 30 degrees centered on the base hue. -/
def generateAnalogous (baseColor : String) (count : ℕ) : ColorHarmony :=
  match chromaParse baseColor with
  | some base =>
    let hsl := rgb2hsl base
    { name := "Analogous",
      colors := (List.range count).map fun (i : ℕ) =>
        chromaHexTriple
          (hsl2rgb (jsRem (hsl.1 + ((((i : ℕ) : ℤ) - ((count / 2 : ℕ) : ℤ)) : ℚ) * 30 + 360) 360)
            hsl.2.1 hsl.2.2),
      description := "Colors adjacent to each other on the color wheel" }
  | none =>
    { name := "Analogous", colors := [baseColor],
      description := "Error generating analogous harmony" }

/-- The bisection interval always stays inside `[0, 1]` with its lower end
below its upper end. -/
theorem fifthRootIter_bounds (x : ℚ) :
    ∀ n, 0 ≤ (fifthRootIter x n).1 ∧ (fifthRootIter x n).1 ≤ (fifthRootIter x n).2 ∧
      (fifthRootIter x n).2 ≤ 1 := by
  intro n
  induction n with
  | zero => simp [fifthRootIter]
  | succ n ih =>
    obtain ⟨h0, h1, h2⟩ := ih
    unfold fifthRootIter
    rcases hfi : fifthRootIter x n with ⟨lo, hi⟩
    rw [hfi] at h0 h1 h2
    dsimp only at h0 h1 h2 ⊢
    split_ifs with hmid
    all_goals dsimp only
    · exact ⟨by linarith, by linarith, h2⟩
    · exact ⟨h0, by linarith, by linarith⟩

/-- The power-curve model is nonnegative. -/
theorem pow24_nonneg (x : ℚ) : 0 ≤ pow24 x := by
  unfold pow24
  split_ifs
  · exact le_refl 0
  · norm_num
  · exact (fifthRootIter_bounds (x ^ 12) 32).1

/-- The power-curve model is bounded by 1. -/
theorem pow24_le_one (x : ℚ) : pow24 x ≤ 1 := by
  unfold pow24
  split_ifs
  · norm_num
  · exact le_refl 1
  · have h := fifthRootIter_bounds (x ^ 12) 32
    linarith [h.1, h.2.1, h.2.2]

/-- The linearized channel is nonnegative on nonnegative input. -/
theorem srgbChannelToLinear_nonneg (c : ℚ) (hc : 0 ≤ c) : 0 ≤ srgbChannelToLinear c := by
  unfold srgbChannelToLinear
  split_ifs
  · positivity
  · exact pow24_nonneg _

/-- The linearized channel never exceeds 1. -/
theorem srgbChannelToLinear_le_one (c : ℚ) : srgbChannelToLinear c ≤ 1 := by
  unfold srgbChannelToLinear
  split_ifs with h
  · rw [div_le_one (by norm_num)]
    linarith
  · exact pow24_le_one _

/-- Relative luminance is nonnegative for every RGB value. -/
theorem getRelativeLuminance_nonneg (c : RGB) : 0 ≤ getRelativeLuminance c := by
  unfold getRelativeLuminance
  have h1 := srgbChannelToLinear_nonneg ((c.r : ℚ) / 255) (by positivity)
  have h2 := srgbChannelToLinear_nonneg ((c.g : ℚ) / 255) (by positivity)
  have h3 := srgbChannelToLinear_nonneg ((c.b : ℚ) / 255) (by positivity)
  linarith

/-- Relative luminance never exceeds 1 (the three WCAG weights sum to 1). -/
theorem getRelativeLuminance_le_one (c : RGB) : getRelativeLuminance c ≤ 1 := by
  unfold getRelativeLuminance
  have h1 := srgbChannelToLinear_le_one ((c.r : ℚ) / 255)
  have h2 := srgbChannelToLinear_le_one ((c.g : ℚ) / 255)
  have h3 := srgbChannelToLinear_le_one ((c.b : ℚ) / 255)
  have h4 := srgbChannelToLinear_nonneg ((c.r : ℚ) / 255) (by positivity)
  have h5 := srgbChannelToLinear_nonneg ((c.g : ℚ) / 255) (by positivity)
  have h6 := srgbChannelToLinear_nonneg ((c.b : ℚ) / 255) (by positivity)
  linarith

/-- A parsed hexadecimal digit is at most 15. -/
theorem hexDigitVal_le (c : Char) (v : ℕ) (h : hexDigitVal c = some v) : v ≤ 15 := by
  unfold hexDigitVal at h
  split_ifs at h with h1 h2 h3
  · injection h with h
    omega
  · injection h with h
    omega
  · injection h with h
    omega

/-- A parsed hexadecimal byte is at most 255. -/
theorem byteFromHex_le (c1 c2 : Char) (v : ℕ) (h : byteFromHex c1 c2 = some v) : v ≤ 255 := by
  unfold byteFromHex at h
  rcases h1 : hexDigitVal c1 with _ | a
  · rw [h1] at h
    exact Option.noConfusion h
  · rw [h1] at h
    rcases h2 : hexDigitVal c2 with _ | b
    · rw [h2] at h
      exact Option.noConfusion h
    · rw [h2] at h
      injection h with h
      have ha := hexDigitVal_le c1 a h1
      have hb := hexDigitVal_le c2 b h2
      omega

/-- Every successfully parsed color has byte channels. -/
theorem chromaParse_bounds (s : String) (c : RGB) (h : chromaParse s = some c) :
    c.r ≤ 255 ∧ c.g ≤ 255 ∧ c.b ≤ 255 := by
  unfold chromaParse at h
  split at h
  · split at h
    · rename_i r g b hr hg hb
      injection h with h
      subst h
      exact ⟨byteFromHex_le _ _ _ hr, byteFromHex_le _ _ _ hg, byteFromHex_le _ _ _ hb⟩
    · exact Option.noConfusion h
  · split at h
    · rename_i r g b hr hg hb
      injection h with h
      subst h
      have ha := hexDigitVal_le _ _ hr
      have hb2 := hexDigitVal_le _ _ hg
      have hc2 := hexDigitVal_le _ _ hb
      dsimp only
      omega
    · exact Option.noConfusion h
  · exact Option.noConfusion h

/-- Shifting by an integer multiple of 360 does not change the wheel hue. -/
theorem wheelMod_add_int_mul (x : ℚ) (k : ℤ) : wheelMod (x + 360 * (k : ℚ)) = wheelMod x := by
  unfold wheelMod
  have h : (x + 360 * (k : ℚ)) / 360 = x / 360 + (k : ℚ) := by
    ring
  rw [h, Int.floor_add_int]
  push_cast
  ring

/-- Two hue angles differing by an integer multiple of 360 reduce alike. -/
theorem wheelMod_eq_of_shift (a b : ℚ) (k : ℤ) (h : a = b + 360 * (k : ℚ)) :
    wheelMod a = wheelMod b := by
  rw [h]
  exact wheelMod_add_int_mul b k

/-- The JavaScript remainder step `(y + 360) % 360` used by the harmony code
lands in the same wheel position as the mathematical reduction of `y`. -/
theorem wheelMod_jsRem360 (y : ℚ) : wheelMod (jsRem (y + 360) 360) = wheelMod y := by
  apply wheelMod_eq_of_shift _ _ (1 - ratTrunc ((y + 360) / 360))
  unfold jsRem
  push_cast
  ring

/-- Wheel reduction is idempotent. -/
theorem wheelMod_wheelMod (x : ℚ) : wheelMod (wheelMod x) = wheelMod x := by
  apply wheelMod_eq_of_shift _ _ (-⌊x / 360⌋)
  unfold wheelMod
  push_cast
  ring

/-- HSL→RGB depends on the hue only through its wheel reduction. -/
theorem hsl2rgb_hue_congr (h1 h2 s l : ℚ) (hh : wheelMod h1 = wheelMod h2) :
    hsl2rgb h1 s l = hsl2rgb h2 s l := by
  unfold hsl2rgb
  rw [hh]

/-- Clamping a normalized byte channel is the identity. -/
theorem clamp_channel_eq (n : ℕ) (hn : n ≤ 255) :
    max 0 (min 1 ((n : ℚ) / 255)) * 255 = (n : ℚ) := by
  have h0 : (0 : ℚ) ≤ (n : ℚ) / 255 := by positivity
  have h1 : (n : ℚ) / 255 ≤ 1 := by
    rw [div_le_one (by norm_num)]
    exact_mod_cast hn
  rw [min_eq_right h1, max_eq_right h0]
  field_simp

/-- Rounding and clamping an exact byte value is the identity. -/
theorem clampByte_natCast (n : ℕ) (hn : n ≤ 255) : clampByte ((n : ℚ)) = n := by
  unfold clampByte jsRound
  have h : ⌊(n : ℚ) + 1 / 2⌋ = (n : ℤ) := by
    rw [add_comm, Int.floor_add_nat]
    norm_num
  rw [h]
  have h2 : ((n : ℤ)) ≤ 255 := by exact_mod_cast hn
  rw [min_eq_right h2, max_eq_right (by positivity)]
  exact Int.toNat_natCast n

/-- C3: for all color strings A and B (valid or not),
`calculateContrastRatio(A, B)` equals `calculateContrastRatio(B, A)`. -/
theorem contrast_symmetry (A B : String) :
    calculateContrastRatio A B = calculateContrastRatio B A := by
  unfold calculateContrastRatio
  rcases hA : chromaParse A with _ | cA <;> rcases hB : chromaParse B with _ | cB <;>
    try dsimp only
  rw [max_comm, min_comm]

/-- C8: for every color string C, `calculateContrastRatio(C, C)` returns
exactly 1 (both for parseable colors, where the two luminances coincide, and
for unparseable ones via the fallback). -/
theorem contrast_self_is_one (C : String) : calculateContrastRatio C C = 1 := by
  unfold calculateContrastRatio
  rcases hC : chromaParse C with _ | c
  · rfl
  · dsimp only
    rw [max_self, min_self]
    have h := getRelativeLuminance_nonneg c
    exact div_self (ne_of_gt (by linarith))

/-- C9: for all input strings A and B (valid or not),
`calculateContrastRatio(A, B)` lies in the closed interval `[1, 21]`, because
relative luminance always lies in `[0, 1]` and invalid input falls back
to 1. -/
theorem contrast_range (A B : String) :
    1 ≤ calculateContrastRatio A B ∧ calculateContrastRatio A B ≤ 21 := by
  unfold calculateContrastRatio
  rcases hA : chromaParse A with _ | cA
  · exact ⟨le_refl 1, by norm_num⟩
  · rcases hB : chromaParse B with _ | cB
    · exact ⟨le_refl 1, by norm_num⟩
    · dsimp only
      have h1 := getRelativeLuminance_nonneg cA
      have h2 := getRelativeLuminance_nonneg cB
      have h3 := getRelativeLuminance_le_one cA
      have h4 := getRelativeLuminance_le_one cB
      have hmn : 0 ≤ min (getRelativeLuminance cA) (getRelativeLuminance cB) := le_min h1 h2
      have hmx : max (getRelativeLuminance cA) (getRelativeLuminance cB) ≤ 1 := max_le h3 h4
      have hle : min (getRelativeLuminance cA) (getRelativeLuminance cB) ≤
          max (getRelativeLuminance cA) (getRelativeLuminance cB) := min_le_max
      have hpos : (0 : ℚ) < min (getRelativeLuminance cA) (getRelativeLuminance cB) + 0.05 := by
        norm_num
        linarith
      constructor
      · rw [le_div_iff₀ hpos]
        linarith
      · rw [div_le_iff₀ hpos]
        linarith

/-- C5 counterexample: the claim that `generateMonochromatic("invalid")`
returns the colors list `["#ff0000"]` is false on the code — the catch branch
echoes the invalid input string back. -/
theorem monochromatic_invalid_not_red :
    ¬ ((generateMonochromatic "invalid" 5).colors = ["#ff0000"]) := by decide

/-- C5 (amended): calling the core operations with the literal string
"invalid" does not throw (every operation is total and takes its documented
fallback branch); in particular `calculateContrastRatio("invalid", "#ffffff")`
returns 1, and `generateMonochromatic("invalid")` returns a harmony whose
colors list is exactly `["invalid"]` — the invalid input echoed back, the
fallback the other operations use as well. -/
theorem invalid_literal_fallbacks :
    calculateContrastRatio "invalid" "#ffffff" = 1 ∧
    (generateMonochromatic "invalid" 5).colors = ["invalid"] ∧
    (generateAnalogous "invalid" 5).colors = ["invalid"] ∧
    applyColorBlindnessFilter "invalid" protanopiaFilter = "invalid" ∧
    generateAccessibilitySuggestions "invalid" "#ffffff" false = [] := by decide

/-- C4: the "Normal Vision" filter is the first entry of the filter table
(with identity matrix), and for every valid color C,
`applyColorBlindnessFilter(C, NormalVision)` returns C unchanged up to hex
round-trip normalization, i.e. equals the normalized lowercase `#rrggbb`
form of C. -/
theorem normal_vision_identity :
    COLOR_BLINDNESS_FILTERS.head? = some normalVisionFilter ∧
    ∀ (cs : String) (c : RGB), chromaParse cs = some c →
      applyColorBlindnessFilter cs normalVisionFilter = normalizeColor cs := by
  refine ⟨rfl, ?_⟩
  intro cs c hp
  have hb := chromaParse_bounds cs c hp
  unfold applyColorBlindnessFilter normalizeColor
  rw [hp]
  dsimp only
  have e00 : matrixEntry normalVisionFilter.matrix 0 0 = 1 := rfl
  have e01 : matrixEntry normalVisionFilter.matrix 0 1 = 0 := rfl
  have e02 : matrixEntry normalVisionFilter.matrix 0 2 = 0 := rfl
  have e10 : matrixEntry normalVisionFilter.matrix 1 0 = 0 := rfl
  have e11 : matrixEntry normalVisionFilter.matrix 1 1 = 1 := rfl
  have e12 : matrixEntry normalVisionFilter.matrix 1 2 = 0 := rfl
  have e20 : matrixEntry normalVisionFilter.matrix 2 0 = 0 := rfl
  have e21 : matrixEntry normalVisionFilter.matrix 2 1 = 0 := rfl
  have e22 : matrixEntry normalVisionFilter.matrix 2 2 = 1 := rfl
  rw [e00, e01, e02, e10, e11, e12, e20, e21, e22]
  rw [show ∀ x y z : ℚ, 1 * x + 0 * y + 0 * z = x from by intros; ring,
    show ∀ x y z : ℚ, 0 * x + 1 * y + 0 * z = y from by intros; ring,
    show ∀ x y z : ℚ, 0 * x + 0 * y + 1 * z = z from by intros; ring]
  rw [clamp_channel_eq c.r hb.1, clamp_channel_eq c.g hb.2.1, clamp_channel_eq c.b hb.2.2]

/-- C4 witness: the identity filter maps the uppercase color `#ABCDEF` to its
normalized lowercase form. -/
theorem normal_vision_identity_witness :
    applyColorBlindnessFilter "#ABCDEF" normalVisionFilter = normalizeColor "#ABCDEF" ∧
    normalizeColor "#ABCDEF" = "#abcdef" :=
  ⟨normal_vision_identity.2 "#ABCDEF" { r := 171, g := 205, b := 239 } (by decide),
    by with_unfolding_all decide⟩

/-- C10: Achromatopsia is the fifth entry of the filter table, and because its
three color rows are identical, `applyColorBlindnessFilter(C, Achromatopsia)`
produces a grayscale color for every valid C: the red, green and blue bytes of
the resulting hex string coincide. -/
theorem achromatopsia_grayscale :
    COLOR_BLINDNESS_FILTERS.get? 4 = some achromatopsiaFilter ∧
    ∀ (cs : String) (c : RGB), chromaParse cs = some c →
      ∃ v : ℕ, applyColorBlindnessFilter cs achromatopsiaFilter =
        "#" ++ byteToHex v ++ byteToHex v ++ byteToHex v := by
  refine ⟨rfl, ?_⟩
  intro cs c hp
  unfold applyColorBlindnessFilter
  rw [hp]
  dsimp only
  unfold chromaHexTriple
  exact ⟨_, rfl⟩

/-- C10 witness: pure red maps to a gray under the Achromatopsia filter. -/
theorem achromatopsia_grayscale_witness :
    ∃ v : ℕ, applyColorBlindnessFilter "#ff0000" achromatopsiaFilter =
      "#" ++ byteToHex v ++ byteToHex v ++ byteToHex v :=
  achromatopsia_grayscale.2 "#ff0000" { r := 255, g := 0, b := 0 } (by decide)

/-- C6: for every valid base color and every count ≥ 1,
`generateAnalogous(base, count)` returns exactly `count` colors, and the i-th
color is the hex encoding (round-trip quantization included) of the HSL color
whose hue is `(baseHue + (i - floor(count/2)) * 30) mod 360` and whose
saturation and lightness are the base's. -/
theorem analogous_hue_formula (base : String) (c : RGB) (count : ℕ)
    (hp : chromaParse base = some c) (hc : 1 ≤ count) :
    (generateAnalogous base count).colors.length = count ∧
    ∀ i, i < count →
      (generateAnalogous base count).colors.get? i =
        some (chromaHexTriple (hsl2rgb
          (wheelMod ((rgb2hsl c).1 + (((i : ℤ) - ((count / 2 : ℕ) : ℤ)) : ℚ) * 30))
          (rgb2hsl c).2.1 (rgb2hsl c).2.2)) := by
  unfold generateAnalogous
  rw [hp]
  dsimp only
  constructor
  · simp
  · intro i hi
    rw [List.get?_map, List.get?_range hi, Option.map_some']
    apply congrArg
    apply congrArg chromaHexTriple
    apply hsl2rgb_hue_congr
    rw [wheelMod_jsRem360, wheelMod_wheelMod]

/-- C6 witness: for pure red and count 5, the harmony has five colors and its
middle color (index 2, offset 0) is the hex round trip of red itself. -/
theorem analogous_hue_formula_witness :
    (generateAnalogous "#ff0000" 5).colors.length = 5 ∧
    (generateAnalogous "#ff0000" 5).colors.get? 2 =
      some (chromaHexTriple (hsl2rgb
        (wheelMod ((rgb2hsl { r := 255, g := 0, b := 0 }).1 +
          (((2 : ℤ) - ((5 / 2 : ℕ) : ℤ)) : ℚ) * 30))
        (rgb2hsl { r := 255, g := 0, b := 0 }).2.1
        (rgb2hsl { r := 255, g := 0, b := 0 }).2.2)) ∧
    (generateAnalogous "#ff0000" 5).colors.get? 2 = some "#ff0000" := by
  have h := analogous_hue_formula "#ff0000" { r := 255, g := 0, b := 0 } 5 (by decide) (by decide)
  exact ⟨h.1, h.2 2 (by decide), by with_unfolding_all decide⟩

/-- Membership in a conditional singleton yields the guard and the value. -/
theorem mem_ite_singleton {α : Type} {p : Prop} [Decidable p] {x s : α}
    (h : s ∈ (if p then [x] else ([] : List α))) : p ∧ s = x := by
  split at h
  · rename_i hp0
    exact ⟨hp0, List.mem_singleton.mp h⟩
  · exact absurd h (List.not_mem_nil s)

/-- C7: every entry of `generateAccessibilitySuggestions(fg, bg, isLargeText)`
has strictly positive improvement, the list is sorted in descending order of
improvement, and the list is empty whenever the current contrast value already
meets the applicable AA threshold (4.5 normal, 3.0 large). -/
theorem suggestions_positive_sorted_empty (fg bg : String) (isLargeText : Bool) :
    (∀ s ∈ generateAccessibilitySuggestions fg bg isLargeText, 0 < s.improvement) ∧
    List.Sorted (fun a b => b.improvement ≤ a.improvement)
      (generateAccessibilitySuggestions fg bg isLargeText) ∧
    ((if isLargeText then (3.0 : ℚ) else 4.5) ≤ calculateContrastRatio fg bg →
      generateAccessibilitySuggestions fg bg isLargeText = []) := by
  unfold generateAccessibilitySuggestions
  rcases hp : chromaParse fg with _ | fgc
  · refine ⟨?_, ?_, ?_⟩
    · intro s hs
      exact absurd hs (List.not_mem_nil s)
    · exact List.sorted_nil
    · intro _
      rfl
  · dsimp only
    refine ⟨?_, ?_, ?_⟩
    · intro s hs
      rw [List.mem_insertionSort] at hs
      by_cases hcond : calculateContrastRatio fg bg <
          (if isLargeText then WCAG_REQUIREMENTS.aa.large else WCAG_REQUIREMENTS.aa.normal)
      · rw [if_pos hcond] at hs
        simp only [List.mem_append] at hs
        rcases hs with (hs | hs) | hs
        · obtain ⟨hgt, rfl⟩ := mem_ite_singleton hs
          dsimp only
          linarith
        · obtain ⟨hgt, rfl⟩ := mem_ite_singleton hs
          dsimp only
          linarith
        · obtain ⟨hgt, rfl⟩ := mem_ite_singleton hs
          dsimp only
          linarith
      · rw [if_neg hcond] at hs
        exact absurd hs (List.not_mem_nil s)
    · exact List.sorted_insertionSort suggestionGE _
    · intro ht
      have hcond : ¬ ( calculateContrastRatio fg bg <
          (if isLargeText then WCAG_REQUIREMENTS.aa.large else WCAG_REQUIREMENTS.aa.normal)) :=
        not_lt.mpr ht
      rw [if_neg hcond]
      rfl

/-- C7 witness: black on white already meets AA, so the suggestion list is
empty there. -/
theorem suggestions_positive_sorted_empty_witness :
    generateAccessibilitySuggestions "#000000" "#ffffff" false = [] :=
  (suggestions_positive_sorted_empty "#000000" "#ffffff" false).2.2
    (by with_unfolding_all decide)

/-- C1: `checkWCAGCompliance` classifies level AAA iff the contrast value
meets the AAA-normal threshold 7.0 or (isLargeText and it meets AAA-large
4.5); otherwise AA iff it meets AA-normal 4.5 or (isLargeText and it meets
AA-large 3.0); otherwise FAIL, and in the FAIL case the recommendation string
embeds the numeric contrast value rendered to two decimals. -/
theorem wcag_level_classification (fg bg : String) (isLargeText : Bool) :
    ((checkWCAGCompliance fg bg isLargeText).level = WCAGLevel.AAA ↔
      ( calculateContrastRatio fg bg ≥ 7.0 ∨
        (isLargeText = true ∧ calculateContrastRatio fg bg ≥ 4.5))) ∧
    ((checkWCAGCompliance fg bg isLargeText).level = WCAGLevel.AA ↔
      (¬ ( calculateContrastRatio fg bg ≥ 7.0 ∨
          (isLargeText = true ∧ calculateContrastRatio fg bg ≥ 4.5)) ∧
        ( calculateContrastRatio fg bg ≥ 4.5 ∨
          (isLargeText = true ∧ calculateContrastRatio fg bg ≥ 3.0)))) ∧
    ((checkWCAGCompliance fg bg isLargeText).level = WCAGLevel.FAIL ↔
      (¬ ( calculateContrastRatio fg bg ≥ 7.0 ∨
          (isLargeText = true ∧ calculateContrastRatio fg bg ≥ 4.5)) ∧
        ¬ ( calculateContrastRatio fg bg ≥ 4.5 ∨
          (isLargeText = true ∧ calculateContrastRatio fg bg ≥ 3.0)))) ∧
    ((checkWCAGCompliance fg bg isLargeText).level = WCAGLevel.FAIL →
      (checkWCAGCompliance fg bg isLargeText).recommendation =
        "Poor contrast (" ++ toFixed2 ( calculateContrastRatio fg bg) ++
          ":1). Consider adjusting colors for better accessibility.") := by
  unfold checkWCAGCompliance
  simp only [WCAG_REQUIREMENTS]
  try dsimp only
  generalize calculateContrastRatio fg bg = r0
  split_ifs with hA hB
  · simp only [Bool.or_eq_true, Bool.and_eq_true, decide_eq_true_eq] at hA
    have hA' : r0 ≥ 7.0 ∨ (isLargeText = true ∧ r0 ≥ 4.5) := hA.imp (fun h => h) And.symm
    exact ⟨iff_of_true rfl hA',
      iff_of_false (by simp) (fun h => h.1 hA'),
      iff_of_false (by simp) (fun h => h.1 hA'),
      fun h => absurd h (by simp)⟩
  · simp only [Bool.or_eq_true, Bool.and_eq_true, decide_eq_true_eq] at hA hB
    have hA' : ¬ (r0 ≥ 7.0 ∨ (isLargeText = true ∧ r0 ≥ 4.5)) :=
      fun h => hA (h.imp (fun h => h) And.symm)
    have hB' : r0 ≥ 4.5 ∨ (isLargeText = true ∧ r0 ≥ 3.0) := hB.imp (fun h => h) And.symm
    exact ⟨iff_of_false (by simp) hA',
      iff_of_true rfl ⟨hA', hB'⟩,
      iff_of_false (by simp) (fun h => h.2 hB'),
      fun h => absurd h (by simp)⟩
  · simp only [Bool.or_eq_true, Bool.and_eq_true, decide_eq_true_eq] at hA hB
    have hA' : ¬ (r0 ≥ 7.0 ∨ (isLargeText = true ∧ r0 ≥ 4.5)) :=
      fun h => hA (h.imp (fun h => h) And.symm)
    have hB' : ¬ (r0 ≥ 4.5 ∨ (isLargeText = true ∧ r0 ≥ 3.0)) :=
      fun h => hB (h.imp (fun h => h) And.symm)
    exact ⟨iff_of_false (by simp) hA',
      iff_of_false (by simp) (fun h => hB' h.2),
      iff_of_true rfl ⟨hA', hB'⟩,
      fun _ => rfl⟩

/-- C1 witness: equal black foreground and background give contrast 1, level
FAIL, and a recommendation embedding 1.00 — the ratio rendered to two
decimals. -/
theorem wcag_level_classification_witness :
    (checkWCAGCompliance "#000000" "#000000" false).level = WCAGLevel.FAIL ∧
    (checkWCAGCompliance "#000000" "#000000" false).recommendation =
      "Poor contrast (1.00:1). Consider adjusting colors for better accessibility." := by
  have h := wcag_level_classification "#000000" "#000000" false
  have hFAIL : (checkWCAGCompliance "#000000" "#000000" false).level = WCAGLevel.FAIL :=
    h.2.2.1.mpr (by with_unfolding_all decide)
  refine ⟨hFAIL, ?_⟩
  rw [h.2.2.2 hFAIL]
  with_unfolding_all decide
